import Mathlib

/-!
Verification development for btrfs-clone (btrfs-clone.py).

This file gives a shallow embedding of the program's replication planner,
read-only discipline, root-snapshot handler, tree placer and orchestrator,
and proves the specification claims about them.

Conventions of the embedding:
* `Subvol` mirrors the attributes parsed by `Subvol.__init__` / `check_show`.
* Python's stable `list.sort` (with `reverse=True` where the code uses it) is
  modelled by a stable insertion sort `pySort keep`, where `keep y x` says an
  earlier element `y` stays in front of a later element `x`.
* The unbounded recursions of `send_subvol_snap` and the `while` loop of
  `parents_getter` are modelled with an explicit fuel parameter; the top-level
  entry points pass `subvols.length` fuel, and claim C10 relates fuel
  sufficiency to acyclicity of the `parent_uuid` relation.
* Filesystem state (what `os.path.isdir` sees), executed/ logged external
  commands, and the `ro` property map are modelled explicitly where a claim
  needs them.
-/

/-- One subvolume of the source inventory, as parsed by `Subvol.__init__`
(`id`, `gen`, `toplevel`, `path` from the list line) and `check_show`
(`uuid`, `parent_uuid`, `parent_id`, `ogen`, `ro`); `parent_uuid` is `none`
when btrfs reports the dash token. -/
structure Subvol where
  id : Nat
  gen : Nat
  toplevel : Nat
  path : String
  uuid : String
  parent_uuid : Option String
  parent_id : Nat
  ogen : Nat
  ro : Bool
deriving DecidableEq, Repr

/-- `Subvol.get_path`: `"%s/%s" % (mnt, self.path)`. -/
def get_path (mnt : String) (sv : Subvol) : String := mnt ++ "/" ++ sv.path

/-- `os.path.basename`: the component after the last slash (the whole string
when it has no slash). -/
def basename (s : String) : String :=
  String.mk ((s.data.reverse.takeWhile (fun c => c ≠ '/')).reverse)

/-- `os.path.dirname`: everything before the last slash, the slash dropped
(empty when there is no slash) — as it behaves on the slash-containing paths
this program composes. -/
def dirname (s : String) : String :=
  String.mk (((s.data.reverse.dropWhile (fun c => c ≠ '/')).drop 1).reverse)

/-- One step of a stable insertion sort: a later element `x` moves past every
earlier element `y` with `keep y x` and lands in front of the first other. -/
def pyInsert (keep : Subvol → Subvol → Bool) (x : Subvol) :
    List Subvol → List Subvol
  | [] => [x]
  | y :: ys => if keep y x then y :: pyInsert keep x ys else x :: y :: ys

/-- Model of Python's stable `list.sort`: insert the elements left to right;
`keep y x` decides that earlier `y` stays in front of later `x`. -/
def pySort (keep : Subvol → Subvol → Bool) (l : List Subvol) : List Subvol :=
  l.foldl (fun acc x => pyInsert keep x acc) []

/-- The comparison realising `snaps.sort(reverse=True, key=(ogen, id))`:
an earlier `a` stays in front of a later `b` iff `(a.ogen, a.id)` is
lexicographically ≥ `(b.ogen, b.id)` (stability for equal keys). -/
def snapKeyGe (a b : Subvol) : Bool :=
  decide (b.ogen < a.ogen) || (decide (a.ogen = b.ogen) && decide (b.id ≤ a.id))

/-- The comparison realising `subvols.sort(key=(parent_id, id))`:
an earlier `a` stays in front of a later `b` iff `(a.parent_id, a.id)` is
lexicographically ≤ `(b.parent_id, b.id)`. -/
def placeKeyLe (a b : Subvol) : Bool :=
  decide (a.parent_id < b.parent_id) ||
    (decide (a.parent_id = b.parent_id) && decide (a.id ≤ b.id))

/-- A snapshot-strategy replication job: the subvolume sent, and the subvolume
passed as `-p`/`-c` (none for a progenitor). -/
abbrev SnapJob := Subvol × Option Subvol

/-- The send flags composed by `send_subvol_snap` (lines 364-367): the parent
is passed both as `-p` and as `-c`; no flags for a progenitor. -/
def snap_send_flags (old : String) : Option Subvol → List String
  | none => []
  | some parent =>
      ["-p", get_path old parent, "-c", get_path old parent]

/-- `send_subvol_snap` (send phase only): emit the job for `sv` with the given
parent, compute its children (`parent_uuid == sv.uuid`), sort them by
`(ogen, id)` descending, and recurse into each child with the previously sent
sibling as its parent (`prev = sv; for snap in snaps: ...; prev = snap`),
realised as a fold threading `(jobs so far, prev)`.  `fuel` bounds the
recursion depth. -/
def send_subvol_snap (subvols : List Subvol) :
    Nat → Subvol → Option Subvol → List SnapJob
  | 0, _, _ => []
  | fuel + 1, sv, parent =>
    (sv, parent) ::
      (((pySort snapKeyGe
            (subvols.filter (fun x => decide (x.parent_uuid = some sv.uuid)))).foldl
          (fun acc snap =>
            (acc.1 ++ send_subvol_snap subvols fuel snap (some acc.2), snap))
          (([] : List SnapJob), sv)).1)

/-- The `for snap in snaps` loop of `send_subvol_snap` in direct recursive
form: descend into each child, threading the previously sent sibling. -/
def send_snap_list (subvols : List Subvol) (fuel : Nat) :
    Subvol → List Subvol → List SnapJob
  | _, [] => []
  | prev, snap :: rest =>
    send_subvol_snap subvols fuel snap (some prev) ++
      send_snap_list subvols fuel snap rest

/-- The send phase of `send_subvols_snap` (lines 431-432): every subvolume
whose `parent_uuid` is absent starts a recursive descent. -/
def send_subvols_snap_plan (subvols : List Subvol) : List SnapJob :=
  (subvols.filter (fun x => decide (x.parent_uuid = none))).flatMap
    (fun sv => send_subvol_snap subvols subvols.length sv none)

/-- Lookup in the dict `{ x.uuid : x for x in subvols }`; a later binding for
the same key overrides an earlier one. -/
def uuid_lookup (subvols : List Subvol) (u : String) : Option Subvol :=
  subvols.reverse.find? (fun x => decide (x.uuid = u))

/-- `parents_getter(lookup)(x)`: walk `parent_uuid` links through the uuid
index, collecting the ancestors; stop at a subvolume with no `parent_uuid`
or at a uuid absent from the index.  `fuel` bounds the walk. -/
def parents_getter (subvols : List Subvol) : Nat → Subvol → List Subvol
  | 0, _ => []
  | fuel + 1, x =>
    match x.parent_uuid with
    | none => []
    | some pu =>
      match uuid_lookup subvols pu with
      | none => []
      | some y => y :: parents_getter subvols fuel y

/-- A parent-strategy replication job as composed by `send_subvol_parent`. -/
structure ParentJob where
  src : String
  recvDir : String
  p_flags : List String
  c_flags : List String
deriving DecidableEq, Repr

/-- `send_subvol_parent`: every ancestor contributes a `-c` flag, the first
ancestor (if any) is the `-p` reference, and the receive directory is the
directory of the subvolume's final destination path. -/
def send_subvol_parent (subvols : List Subvol) (fuel : Nat)
    (old new : String) (sv : Subvol) : ParentJob :=
  let parents := parents_getter subvols fuel sv
  { src := get_path old sv
    recvDir := dirname (get_path new sv)
    p_flags :=
      match parents with
      | [] => []
      | x :: _ => ["-p", get_path old x]
    c_flags := (parents.map (fun x => ["-c", get_path old x])).flatten }

/-- `send_subvols_parent`: the loop `for sv in subvols[:2]` — only the first
two inventoried subvolumes receive a job. -/
def send_subvols_parent (old new : String) (subvols : List Subvol) :
    List ParentJob :=
  (subvols.take 2).map (send_subvol_parent subvols subvols.length old new)

/-- One step of the ancestor walk: `lookup[x.parent_uuid]`, `none` when
`x` has no parent uuid or the uuid is absent from the index. -/
def chain_step (subvols : List Subvol) (x : Subvol) : Option Subvol :=
  match x.parent_uuid with
  | none => none
  | some pu => uuid_lookup subvols pu

/-- Iterated ancestor walk: `chain_iter n x` is the subvolume reached after
`n` successful steps from `x`, or `none` once the walk has terminated. -/
def chain_iter (subvols : List Subvol) : Nat → Subvol → Option Subvol
  | 0, x => some x
  | n + 1, x =>
    match chain_step subvols x with
    | none => none
    | some y => chain_iter subvols n y

/-! ### Read-only discipline (`prop_set_ro`, `Subvol.set_ro`, `set_all_ro`) -/

/-- `prop_set_ro` on the map from paths to their current `ro` property. -/
def prop_set_ro (path : String) (v : Bool) (st : String → Bool) :
    String → Bool :=
  fun p => if p = path then v else st p

/-- `Subvol.set_ro`: "Never change a subvol that was already ro" — a no-op
when the inventoried `ro` flag is set, otherwise a property write on the
subvolume's path under `mnt`. -/
def set_ro (sv : Subvol) (v : Bool) (mnt : String) (st : String → Bool) :
    String → Bool :=
  if sv.ro then st else prop_set_ro (get_path mnt sv) v st

/-- `set_all_ro`: apply `set_ro` to every subvolume, in inventory order when
switching to read-only and in reverse order when switching back. -/
def set_all_ro (v : Bool) (subvols : List Subvol) (mnt : String)
    (st : String → Bool) : String → Bool :=
  (if v then subvols else subvols.reverse).foldl
    (fun s sv => set_ro sv v mnt s) st

/-! ### External-command execution model (`check_call`, `do_send_recv`) -/

/-- Trace of external commands: those actually executed and those echoed. -/
structure Exec where
  executed : List (List String)
  logged : List (List String)
deriving DecidableEq, Repr

/-- The `check_call` wrapper (lines 113-117): echo the command when verbose,
execute it only when not in dry-run mode. -/
def check_call (dry_run : Bool) (verbose : Nat) (cmd : List String)
    (st : Exec) : Exec :=
  let st := if 0 < verbose then { st with logged := st.logged ++ [cmd] } else st
  if dry_run then st else { st with executed := st.executed ++ [cmd] }

/-- A raw `subprocess.check_call`: always executed, dry-run or not. -/
def subprocess_check_call (cmd : List String) (st : Exec) : Exec :=
  { st with executed := st.executed ++ [cmd] }

/-- `do_send_recv`: echo the composed pipeline when verbose, return without
spawning anything in dry-run mode, otherwise run the pipeline. -/
def do_send_recv (dry_run : Bool) (verbose : Nat)
    (send_cmd recv_cmd : List String) (st : Exec) : Exec :=
  let pipeline := send_cmd ++ ["|"] ++ recv_cmd
  let st :=
    if 0 < verbose then { st with logged := st.logged ++ [pipeline] } else st
  if dry_run then st else { st with executed := st.executed ++ [pipeline] }

/-! ### Root snapshot handler (`send_root`) -/

/-- `make_args`: the `-t` (long form `--toplevel`) option is declared with
`action=store_false`, so `opts.toplevel` is true exactly when `-t` was
**not** given. -/
def toplevel_opt (tGiven : Bool) : Bool := !tGiven

/-- Outcome of the post-receive part of `send_root`: which snapshot entries
were renamed into the destination root, whether the received snapshot was
deleted, and the path returned as base for further replication. -/
structure RootResult where
  moved : List String
  snapshotDeleted : Bool
  ret : String
deriving DecidableEq, Repr

/-- The placement decision of `send_root` (lines 312-328), for a wet run:
`entries` are the `(name, device)` pairs listed in the received snapshot and
`dev` is the snapshot's own device.  When `opts.toplevel` holds (no `-t`),
every same-device entry is renamed into the destination root, the snapshot is
deleted and the destination root is returned; otherwise the snapshot is kept
and returned. -/
def send_root_place (toplevel : Bool) (new new_snap : String) (dev : Nat)
    (entries : List (String × Nat)) : RootResult :=
  if toplevel then
    { moved :=
        entries.foldl
          (fun acc e =>
            if dev = e.2 then acc ++ [new_snap ++ "/" ++ e.1] else acc) []
      snapshotDeleted := true
      ret := new }
  else
    { moved := [], snapshotDeleted := false, ret := new_snap }

/-- The external-command trace of `send_root` (lines 302-328).  The snapshot
of the source root is created with a **raw** `subprocess.check_call`; the
send/receive, the property reset, the entry renames and the snapshot deletion
go through the dry-run-aware wrappers.  `entries` abstracts `os.listdir` of
the inspected snapshot, `dev` its device. -/
def send_root_cmds (dry_run : Bool) (verbose : Nat) (toplevel : Bool)
    (btrfs old new name : String) (entries : List (String × Nat)) (dev : Nat)
    (st : Exec) : Exec :=
  let old_snap := old ++ "/" ++ name
  let new_snap := new ++ "/" ++ name
  let st :=
    subprocess_check_call [btrfs, "subvolume", "snapshot", "-r", old, old_snap]
      st
  let st :=
    do_send_recv dry_run verbose [btrfs, "send", old_snap]
      [btrfs, "receive", new] st
  let st :=
    check_call dry_run verbose [btrfs, "property", "set", new_snap, "ro",
      "false"] st
  let dir := if dry_run then old_snap else new_snap
  if toplevel then
    let st :=
      entries.foldl
        (fun s e =>
          if dev = e.2 then
            check_call dry_run verbose
              (["mv", "-f", "-t", new] ++
                (if 0 < verbose then ["-v"] else []) ++ [dir ++ "/" ++ e.1]) s
          else s) st
    check_call dry_run verbose [btrfs, "subvolume", "delete", new_snap] st
  else st

/-- The driving loop of the snapshot-strategy send phase, restricted to its
pipeline invocations: one `do_send_recv` per planned job. -/
def run_snap_sends (dry_run : Bool) (verbose : Nat) (btrfs old : String)
    (plan : List SnapJob) (st : Exec) : Exec :=
  plan.foldl
    (fun s job =>
      do_send_recv dry_run verbose
        ([btrfs, "send"] ++ snap_send_flags old job.2 ++
          [get_path old job.1])
        [btrfs, "receive"] s) st

/-! ### Orchestrator control flow (`__main__`) -/

/-- The orchestrator's observable steps. -/
inductive MainStep
  | mountOld (uuid : String)
  | mountNew (uuid : String)
  | createSourceSnapshot
  | rootHandling
  | subvolReplication
deriving DecidableEq, Repr

/-- Control flow of `__main__`: mount both filesystems by their true root,
abort (raise) when they report the same uuid, otherwise run `send_root`
(whose first act creates the source-side root snapshot) and `send_subvols`.
The boolean is true when the run proceeded past the guard. -/
def main_run (old_uuid new_uuid : String) : List MainStep × Bool :=
  let mounts := [MainStep.mountOld old_uuid, MainStep.mountNew new_uuid]
  if old_uuid = new_uuid then
    (mounts, false)
  else
    (mounts ++ [MainStep.createSourceSnapshot, MainStep.rootHandling,
      MainStep.subvolReplication], true)

/-! ### Tree placer (`move_to_tree_pos`, `send_subvols_snap` sweep) -/

/-- State seen and mutated by the tree placer: the set of paths for which
`os.path.isdir` holds, the `done` set of placed subvolume ids, the renames
executed so far and the diagnostics printed. -/
structure PlaceState where
  dirs : List String
  done : List Nat
  mvs : List (String × String)
  msgs : List String
deriving DecidableEq, Repr

/-- `os.path.isdir` on the modelled filesystem. -/
def isdir (st : PlaceState) (p : String) : Bool := st.dirs.contains p

/-- `move_to_tree_pos` for a wet run.  `goal` is the subvolume's final path
under the destination root, `cur` its staged path `<staging>/<id>/<basename>`.
If `cur` is gone: success when `goal` already exists, a reported failure
otherwise.  If `cur` exists and the subvolume's container is the top-level
root (`parent_id == 5`) or already placed (`parent_id ∈ done`), rename `cur`
into the directory of `goal`, drop the staging directory and record the id as
placed; otherwise report and fail.  The boolean is the function's return
value. -/
def move_to_tree_pos (sv : Subvol) (new base : String) (st : PlaceState) :
    PlaceState × Bool :=
  let goal := get_path new sv
  let last := basename goal
  let dir := base ++ "/" ++ toString sv.id
  let cur := dir ++ "/" ++ last
  if !isdir st cur then
    if isdir st goal then
      ({ st with msgs := st.msgs ++ ["ah, " ++ goal ++ " already moved"] },
        true)
    else
      ({ st with msgs := st.msgs ++ ["ERROR: " ++ cur ++ " was not created"] },
        false)
  else if sv.parent_id = 5 ∨ sv.parent_id ∈ st.done then
    ({ st with
        dirs := (st.dirs.filter (fun p => p ≠ cur ∧ p ≠ dir)) ++ [goal]
        mvs := st.mvs ++ [(cur, dirname goal)]
        done := st.done ++ [sv.id] }, true)
  else
    ({ st with
        msgs := st.msgs ++
          ["Hmm, parent " ++ toString sv.parent_id ++ " of " ++
            toString sv.id ++ " not found"] }, false)

/-- The placement sweep of `send_subvols_snap` (lines 435-437): fold
`move_to_tree_pos` over the subvolumes, ignoring each return value, so the
sweep continues after an individual failure. -/
def place_sweep (new base : String) (subvols : List Subvol)
    (st : PlaceState) : PlaceState :=
  subvols.foldl (fun s sv => (move_to_tree_pos sv new base s).1) st

/-- The full placement phase: sort by `(parent_id, id)` ascending, then
sweep. -/
def place_all (new base : String) (subvols : List Subvol) (st : PlaceState) :
    PlaceState :=
  place_sweep new base (pySort placeKeyLe subvols) st

/-- First element of a two-subvolume inventory whose `parent_uuid` links form
a cycle (`cycA` names `cycB`'s uuid and vice versa). -/
def cycA : Subvol := ⟨1, 0, 5, "a", "ua", some "ub", 5, 0, false⟩

/-- Second element of the cyclic inventory. -/
def cycB : Subvol := ⟨2, 0, 5, "b", "ub", some "ua", 5, 0, false⟩

/-- The cyclic two-subvolume inventory. -/
def cycFS : List Subvol := [cycA, cycB]

/-! ## Helper lemmas -/

lemma mem_pyInsert {keep : Subvol → Subvol → Bool} {x a : Subvol} :
    ∀ {l : List Subvol}, a ∈ pyInsert keep x l ↔ a = x ∨ a ∈ l := by
  intro l
  induction l with
  | nil => simp [pyInsert]
  | cons y ys ih =>
    cases h : keep y x
    · simp [pyInsert, h]
    · simp [pyInsert, h, ih]
      tauto

lemma mem_pySort_foldl {keep : Subvol → Subvol → Bool} :
    ∀ (l acc : List Subvol) (a : Subvol),
      a ∈ l.foldl (fun acc x => pyInsert keep x acc) acc ↔ a ∈ acc ∨ a ∈ l := by
  intro l
  induction l with
  | nil => simp
  | cons x xs ih =>
    intro acc a
    simp only [List.foldl_cons, ih, mem_pyInsert, List.mem_cons]
    tauto

lemma mem_pySort {keep : Subvol → Subvol → Bool} {l : List Subvol}
    {a : Subvol} : a ∈ pySort keep l ↔ a ∈ l := by
  unfold pySort
  rw [mem_pySort_foldl]
  simp

lemma snap_foldl_eq (subvols : List Subvol) (fuel : Nat) :
    ∀ (l : List Subvol) (js : List SnapJob) (prev : Subvol),
      (l.foldl
          (fun acc snap =>
            (acc.1 ++ send_subvol_snap subvols fuel snap (some acc.2), snap))
          (js, prev)).1 =
        js ++ send_snap_list subvols fuel prev l := by
  intro l
  induction l with
  | nil =>
    intro js prev
    simp [send_snap_list]
  | cons snap rest ih =>
    intro js prev
    simp only [List.foldl_cons]
    rw [ih]
    simp [send_snap_list]

/-- Unfolding equation for `send_subvol_snap` at positive fuel, with the
sibling loop in its direct recursive form. -/
lemma send_subvol_snap_succ (subvols : List Subvol) (fuel : Nat)
    (sv : Subvol) (parent : Option Subvol) :
    send_subvol_snap subvols (fuel + 1) sv parent =
      (sv, parent) ::
        send_snap_list subvols fuel sv
          (pySort snapKeyGe
            (subvols.filter (fun x => decide (x.parent_uuid = some sv.uuid)))) := by
  simp only [send_subvol_snap]
  rw [snap_foldl_eq]
  simp

lemma ro_foldl (v : Bool) (mnt : String) :
    ∀ (l : List Subvol) (st : String → Bool) (p : String),
      (l.foldl (fun s sv => set_ro sv v mnt s) st) p =
        if l.any (fun sv => !sv.ro && decide (get_path mnt sv = p)) then v
        else st p := by
  intro l
  induction l with
  | nil => intro st p; simp
  | cons sv rest ih =>
    intro st p
    simp only [List.foldl_cons, List.any_cons]
    rw [ih]
    by_cases hro : sv.ro
    · simp [set_ro, hro]
    · by_cases hp : get_path mnt sv = p
      · simp [set_ro, hro, prop_set_ro, hp]
      · have hp2 : ¬ p = get_path mnt sv := fun h => hp h.symm
        simp [set_ro, hro, prop_set_ro, hp, hp2]

lemma set_all_ro_apply (v : Bool) (subvols : List Subvol) (mnt : String)
    (st : String → Bool) (p : String) :
    set_all_ro v subvols mnt st p =
      if subvols.any (fun sv => !sv.ro && decide (get_path mnt sv = p)) then v
      else st p := by
  unfold set_all_ro
  cases v
  · simp [ro_foldl, List.any_reverse]
  · simp [ro_foldl]

lemma moved_foldl (dev : Nat) (new_snap : String) :
    ∀ (l : List (String × Nat)) (acc : List String),
      l.foldl
          (fun acc e =>
            if dev = e.2 then acc ++ [new_snap ++ "/" ++ e.1] else acc) acc =
        acc ++
          (l.filter (fun e => decide (dev = e.2))).map
            (fun e => new_snap ++ "/" ++ e.1) := by
  intro l
  induction l with
  | nil => intro acc; simp
  | cons e rest ih =>
    intro acc
    simp only [List.foldl_cons, List.filter_cons]
    by_cases h : dev = e.2
    · rw [if_pos h, ih]
      simp [h]
    · rw [if_neg h, ih]
      simp [h]

lemma check_call_dry_executed (verbose : Nat) (cmd : List String) (st : Exec) :
    (check_call true verbose cmd st).executed = st.executed := by
  unfold check_call
  by_cases h : 0 < verbose <;> simp [h]

lemma check_call_dry_logged (verbose : Nat) (cmd : List String) (st : Exec)
    (h : 0 < verbose) :
    (check_call true verbose cmd st).logged = st.logged ++ [cmd] := by
  simp [check_call, h]

lemma do_send_recv_dry_executed (verbose : Nat) (s r : List String)
    (st : Exec) : (do_send_recv true verbose s r st).executed = st.executed := by
  unfold do_send_recv
  by_cases h : 0 < verbose <;> simp [h]

lemma do_send_recv_dry_logged (verbose : Nat) (s r : List String) (st : Exec)
    (h : 0 < verbose) :
    (do_send_recv true verbose s r st).logged =
      st.logged ++ [s ++ ["|"] ++ r] := by
  simp [do_send_recv, h]

lemma run_snap_sends_dry (verbose : Nat) (btrfs old : String) :
    ∀ (plan : List SnapJob) (st : Exec),
      (run_snap_sends true verbose btrfs old plan st).executed = st.executed ∧
      (0 < verbose →
        (run_snap_sends true verbose btrfs old plan st).logged =
          st.logged ++
            plan.map (fun job =>
              [btrfs, "send"] ++ snap_send_flags old job.2 ++
                [get_path old job.1] ++ ["|"] ++ [btrfs, "receive"])) := by
  intro plan
  induction plan with
  | nil => intro st; simp [run_snap_sends]
  | cons job rest ih =>
    intro st
    unfold run_snap_sends at ih ⊢
    simp only [List.foldl_cons, List.map_cons]
    constructor
    · rw [(ih _).1, do_send_recv_dry_executed]
    · intro hv
      rw [(ih _).2 hv, do_send_recv_dry_logged _ _ _ _ hv]
      simp

lemma entries_foldl_dry_executed (verbose : Nat) (dev : Nat)
    (mkCmd : String × Nat → List String) :
    ∀ (entries : List (String × Nat)) (st : Exec),
      (entries.foldl
          (fun s e =>
            if dev = e.2 then check_call true verbose (mkCmd e) s else s)
          st).executed = st.executed := by
  intro entries
  induction entries with
  | nil => intro st; simp
  | cons e rest ih =>
    intro st
    simp only [List.foldl_cons]
    by_cases h : dev = e.2
    · rw [if_pos h, ih, check_call_dry_executed]
    · rw [if_neg h, ih]

lemma send_root_cmds_dry_executed (verbose : Nat) (toplevel : Bool)
    (btrfs old new name : String) (entries : List (String × Nat)) (dev : Nat)
    (st : Exec) :
    (send_root_cmds true verbose toplevel btrfs old new name entries dev
        st).executed =
      st.executed ++
        [[btrfs, "subvolume", "snapshot", "-r", old, old ++ "/" ++ name]] := by
  unfold send_root_cmds
  cases toplevel
  · simp only [Bool.false_eq_true, if_false]
    rw [check_call_dry_executed, do_send_recv_dry_executed]
    rfl
  · simp only [if_true]
    rw [check_call_dry_executed]
    rw [entries_foldl_dry_executed]
    rw [check_call_dry_executed, do_send_recv_dry_executed]
    rfl

/-! ## Claim theorems -/

/-- C2: under the parent strategy the planner is claimed to emit one job for
**every** inventoried subvolume.  The code iterates `subvols[:2]` only: on a
three-subvolume inventory the planner emits exactly the two jobs below (whose
shape — ancestor chain as `-c` set, first ancestor as `-p`, receive directory
`dirname` of the destination path — matches the claim) and the third
subvolume gets no job at all. -/
theorem C2_parent_strategy_truncated :
    send_subvols_parent "/o" "/n"
        [⟨256, 50, 5, "a", "ua", none, 5, 10, false⟩,
         ⟨257, 51, 5, "a/b", "ub", some "ua", 5, 20, false⟩,
         ⟨258, 52, 5, "a/b/c", "uc", some "ub", 5, 30, false⟩] =
      [{ src := "/o/a", recvDir := "/n", p_flags := [], c_flags := [] },
       { src := "/o/a/b", recvDir := "/n/a", p_flags := ["-p", "/o/a"],
         c_flags := ["-c", "/o/a"] }] ∧
    ∀ j ∈ send_subvols_parent "/o" "/n"
        [⟨256, 50, 5, "a", "ua", none, 5, 10, false⟩,
         ⟨257, 51, 5, "a/b", "ub", some "ua", 5, 20, false⟩,
         ⟨258, 52, 5, "a/b/c", "uc", some "ub", 5, 30, false⟩],
      j.src ≠ "/o/a/b/c" := by
  constructor
  · decide
  · decide

/-- C5: `send_root` with the default option (`-t` absent, so `opts.toplevel`
is true) renames exactly the same-device entries of the received snapshot
into the destination root, deletes the snapshot and returns the destination
root; with `-t` given it keeps the snapshot and returns its path as the base
for further replication. -/
theorem C5_toplevel_merge_or_keep :
    ∀ (new new_snap : String) (dev : Nat) (entries : List (String × Nat)),
      send_root_place (toplevel_opt false) new new_snap dev entries =
        { moved := (entries.filter (fun e => decide (dev = e.2))).map
            (fun e => new_snap ++ "/" ++ e.1)
          snapshotDeleted := true
          ret := new } ∧
      send_root_place (toplevel_opt true) new new_snap dev entries =
        { moved := [], snapshotDeleted := false, ret := new_snap } := by
  intro new new_snap dev entries
  constructor
  · simp [send_root_place, toplevel_opt, moved_foldl]
  · simp [send_root_place, toplevel_opt]

/-- C6: with identical filesystem uuids the orchestrator stops right after
the two mounts — before the source-side root snapshot and before any
destination mutation; with distinct uuids it proceeds to root handling and
subvolume replication. -/
theorem C6_same_filesystem_guard :
    (∀ u : String,
        main_run u u = ([MainStep.mountOld u, MainStep.mountNew u], false) ∧
        MainStep.createSourceSnapshot ∉ (main_run u u).1 ∧
        MainStep.rootHandling ∉ (main_run u u).1 ∧
        MainStep.subvolReplication ∉ (main_run u u).1) ∧
    (∀ u v : String, u ≠ v →
        (main_run u v).2 = true ∧
        MainStep.createSourceSnapshot ∈ (main_run u v).1 ∧
        MainStep.rootHandling ∈ (main_run u v).1 ∧
        MainStep.subvolReplication ∈ (main_run u v).1) := by
  constructor
  · intro u
    simp [main_run]
  · intro u v h
    simp [main_run, h]

/-- Witness for C6 at concrete distinct uuids. -/
theorem C6_same_filesystem_guard_witness :
    (main_run "ua" "ub").2 = true ∧
      MainStep.createSourceSnapshot ∈ (main_run "ua" "ub").1 ∧
      MainStep.rootHandling ∈ (main_run "ua" "ub").1 ∧
      MainStep.subvolReplication ∈ (main_run "ua" "ub").1 :=
  C6_same_filesystem_guard.2 "ua" "ub" (by decide)

/-- C7 claims every mutating external call — including the creation of the
source-side root snapshot — is suppressed in dry-run mode and that every
suppressed invocation is logged.  Counterexample: a dry run at verbosity 0
**executes** the source-side snapshot creation (it goes through a raw
`subprocess.check_call`, line 306) and logs nothing at all. -/
theorem C7_dry_run_counterexample :
    (send_root_cmds true 0 true "btrfs" "/old" "/new" "nm" [] 0
        { executed := [], logged := [] }).executed =
      [["btrfs", "subvolume", "snapshot", "-r", "/old", "/old/nm"]] ∧
    (send_root_cmds true 0 true "btrfs" "/old" "/new" "nm" [] 0
        { executed := [], logged := [] }).logged = [] := by
  decide

/-- C7 (amended): in dry-run mode every call through the `check_call` wrapper
and through `do_send_recv` is suppressed, and is echoed exactly when
verbosity ≥ 1; the send pass still walks the full plan (logging one pipeline
per job, executing none); but the creation of the source-side root snapshot
is executed even under dry-run. -/
theorem C7_dry_run_amended :
    (∀ (verbose : Nat) (cmd : List String) (st : Exec),
        (check_call true verbose cmd st).executed = st.executed ∧
        (0 < verbose →
          (check_call true verbose cmd st).logged = st.logged ++ [cmd])) ∧
    (∀ (verbose : Nat) (s r : List String) (st : Exec),
        (do_send_recv true verbose s r st).executed = st.executed ∧
        (0 < verbose →
          (do_send_recv true verbose s r st).logged =
            st.logged ++ [s ++ ["|"] ++ r])) ∧
    (∀ (verbose : Nat) (btrfs old : String) (plan : List SnapJob)
        (st : Exec),
        (run_snap_sends true verbose btrfs old plan st).executed =
          st.executed ∧
        (0 < verbose →
          (run_snap_sends true verbose btrfs old plan st).logged =
            st.logged ++ plan.map (fun job =>
              [btrfs, "send"] ++ snap_send_flags old job.2 ++
                [get_path old job.1] ++ ["|"] ++ [btrfs, "receive"]))) ∧
    (∀ (verbose : Nat) (toplevel : Bool) (btrfs old new name : String)
        (entries : List (String × Nat)) (dev : Nat) (st : Exec),
        (send_root_cmds true verbose toplevel btrfs old new name entries dev
            st).executed =
          st.executed ++
            [[btrfs, "subvolume", "snapshot", "-r", old,
              old ++ "/" ++ name]]) :=
  ⟨fun v cmd st =>
      ⟨check_call_dry_executed v cmd st, check_call_dry_logged v cmd st⟩,
   fun v s r st =>
      ⟨do_send_recv_dry_executed v s r st, do_send_recv_dry_logged v s r st⟩,
   fun v b o plan st => run_snap_sends_dry v b o plan st,
   fun v t b o n nm e d st => send_root_cmds_dry_executed v t b o n nm e d st⟩

/-- Witness for C7 (amended): a dry-run `check_call` at verbosity 1 executes
nothing and logs the composed command. -/
theorem C7_dry_run_amended_witness :
    (check_call true 1 ["mv"] { executed := [], logged := [] }).executed =
      [] ∧
    (check_call true 1 ["mv"] { executed := [], logged := [] }).logged =
      [["mv"]] :=
  ⟨(C7_dry_run_amended.1 1 ["mv"] { executed := [], logged := [] }).1,
   (C7_dry_run_amended.1 1 ["mv"] { executed := [], logged := [] }).2
     (by decide)⟩

/-- C9 claims a subvolume whose staged path is gone but whose goal path
exists has its id recorded in the placement state, making later children
eligible.  Counterexample: subvolume 7 takes the already-moved branch (the
placer returns success) yet `done` stays empty, so subvolume 8 with
`parent_id = 7` is **not** moved — the sweep reports a missing parent. -/
theorem C9_already_moved_counterexample :
    (move_to_tree_pos ⟨7, 50, 5, "a", "u7", none, 5, 10, false⟩ "/new"
        "/stage"
        { dirs := ["/new/a", "/stage/8/b"], done := [], mvs := [],
          msgs := [] }).2 = true ∧
    (move_to_tree_pos ⟨7, 50, 5, "a", "u7", none, 5, 10, false⟩ "/new"
        "/stage"
        { dirs := ["/new/a", "/stage/8/b"], done := [], mvs := [],
          msgs := [] }).1.done = [] ∧
    (move_to_tree_pos ⟨8, 50, 5, "a/b", "u8", none, 7, 20, false⟩ "/new"
        "/stage"
        (move_to_tree_pos ⟨7, 50, 5, "a", "u7", none, 5, 10, false⟩ "/new"
            "/stage"
            { dirs := ["/new/a", "/stage/8/b"], done := [], mvs := [],
              msgs := [] }).1).2 = false ∧
    (move_to_tree_pos ⟨8, 50, 5, "a/b", "u8", none, 7, 20, false⟩ "/new"
        "/stage"
        (move_to_tree_pos ⟨7, 50, 5, "a", "u7", none, 5, 10, false⟩ "/new"
            "/stage"
            { dirs := ["/new/a", "/stage/8/b"], done := [], mvs := [],
              msgs := [] }).1).1.mvs = [] := by
  decide

/-- C9 (amended): when the staged path no longer exists but the goal path
already does, the placer reports the subvolume as already moved and returns
success, leaving the filesystem untouched — but it does **not** record the
subvolume's id in the placement state, so later subvolumes with that
`parent_id` are eligible only through `parent_id = 5` or an actual earlier
rename. -/
theorem C9_already_moved_amended :
    ∀ (sv : Subvol) (new base : String) (st : PlaceState),
      isdir st (base ++ "/" ++ toString sv.id ++ "/" ++
        basename (get_path new sv)) = false →
      isdir st (get_path new sv) = true →
      (move_to_tree_pos sv new base st).2 = true ∧
      (move_to_tree_pos sv new base st).1.done = st.done ∧
      (move_to_tree_pos sv new base st).1.mvs = st.mvs ∧
      (move_to_tree_pos sv new base st).1.dirs = st.dirs := by
  intro sv new base st h1 h2
  unfold move_to_tree_pos
  simp [h1, h2]

/-- Witness for C9 (amended) at a concrete already-moved subvolume. -/
theorem C9_already_moved_amended_witness :
    (move_to_tree_pos ⟨7, 50, 5, "a", "u7", none, 5, 10, false⟩ "/new"
        "/stage" { dirs := ["/new/a"], done := [], mvs := [], msgs := [] }).2
      = true ∧
    (move_to_tree_pos ⟨7, 50, 5, "a", "u7", none, 5, 10, false⟩ "/new"
        "/stage"
        { dirs := ["/new/a"], done := [], mvs := [],
          msgs := [] }).1.done = [] ∧
    (move_to_tree_pos ⟨7, 50, 5, "a", "u7", none, 5, 10, false⟩ "/new"
        "/stage"
        { dirs := ["/new/a"], done := [], mvs := [],
          msgs := [] }).1.mvs = [] ∧
    (move_to_tree_pos ⟨7, 50, 5, "a", "u7", none, 5, 10, false⟩ "/new"
        "/stage"
        { dirs := ["/new/a"], done := [], mvs := [],
          msgs := [] }).1.dirs = ["/new/a"] :=
  C9_already_moved_amended ⟨7, 50, 5, "a", "u7", none, 5, 10, false⟩ "/new"
    "/stage" { dirs := ["/new/a"], done := [], mvs := [], msgs := [] }
    (by decide) (by decide)

/-- C4: the placer renames a staged subvolume only when its `parent_id` is 5
or is already in the placement state; when the staged copy exists but neither
condition holds it reports the failure, changes nothing and returns `false`;
and the sweep is a fold that always continues with the remaining
subvolumes. -/
theorem C4_placement_guard :
    (∀ (sv : Subvol) (new base : String) (st : PlaceState),
        (move_to_tree_pos sv new base st).1.mvs ≠ st.mvs →
        sv.parent_id = 5 ∨ sv.parent_id ∈ st.done) ∧
    (∀ (sv : Subvol) (new base : String) (st : PlaceState),
        isdir st (base ++ "/" ++ toString sv.id ++ "/" ++
          basename (get_path new sv)) = true →
        ¬(sv.parent_id = 5 ∨ sv.parent_id ∈ st.done) →
        (move_to_tree_pos sv new base st).2 = false ∧
        (move_to_tree_pos sv new base st).1.mvs = st.mvs ∧
        (move_to_tree_pos sv new base st).1.done = st.done ∧
        (move_to_tree_pos sv new base st).1.dirs = st.dirs) ∧
    (∀ (sv : Subvol) (rest : List Subvol) (new base : String)
        (st : PlaceState),
        place_sweep new base (sv :: rest) st =
          place_sweep new base rest ((move_to_tree_pos sv new base st).1)) := by
  refine ⟨?_, ?_, ?_⟩
  · intro sv new base st h
    by_cases h3 : sv.parent_id = 5 ∨ sv.parent_id ∈ st.done
    · exact h3
    · exfalso
      apply h
      unfold move_to_tree_pos
      by_cases h1 : isdir st (base ++ "/" ++ toString sv.id ++ "/" ++
        basename (get_path new sv))
      · simp [h1, h3]
      · by_cases h2 : isdir st (get_path new sv)
        · simp [h1, h2]
        · simp [h1, h2]
  · intro sv new base st hcur hcond
    unfold move_to_tree_pos
    simp [hcur, hcond]
  · intro sv rest new base st
    rfl

/-- Witness for C4 at a concrete rename of a top-level subvolume. -/
theorem C4_placement_guard_witness :
    (⟨7, 50, 5, "a", "u7", none, 5, 10, false⟩ : Subvol).parent_id = 5 ∨
      (⟨7, 50, 5, "a", "u7", none, 5, 10, false⟩ : Subvol).parent_id ∈
        ([] : List Nat) :=
  C4_placement_guard.1 ⟨7, 50, 5, "a", "u7", none, 5, 10, false⟩ "/new"
    "/stage" { dirs := ["/stage/7/a"], done := [], mvs := [], msgs := [] }
    (by decide)

/-- C3: `set_ro` never touches a subvolume inventoried read-only, and for the
run `set_all_ro true` … arbitrary destination-side effects `f` (which leave
the source subvolume paths alone) … exit-registered `set_all_ro false`, every
initially-writable subvolume ends with `ro = false`, its inventoried value,
while paths belonging only to initially read-only subvolumes are never
toggled. -/
theorem C3_ro_round_trip :
    (∀ (sv : Subvol) (v : Bool) (mnt : String) (st : String → Bool),
        sv.ro = true → set_ro sv v mnt st = st) ∧
    (∀ (subvols : List Subvol) (mnt : String) (st : String → Bool)
        (f : (String → Bool) → String → Bool),
        (∀ (s : String → Bool) (sv : Subvol), sv ∈ subvols →
            f s (get_path mnt sv) = s (get_path mnt sv)) →
        ∀ sv ∈ subvols,
          (sv.ro = false →
            set_all_ro false subvols mnt (f (set_all_ro true subvols mnt st))
                (get_path mnt sv) = false) ∧
          ((∀ sv2 ∈ subvols, get_path mnt sv2 = get_path mnt sv →
              sv2.ro = true) →
            set_all_ro false subvols mnt (f (set_all_ro true subvols mnt st))
                (get_path mnt sv) = st (get_path mnt sv))) := by
  constructor
  · intro sv v mnt st h
    simp [set_ro, h]
  · intro subvols mnt st f hf sv hmem
    constructor
    · intro hro
      rw [set_all_ro_apply]
      have hany : subvols.any
          (fun x => !x.ro && decide (get_path mnt x = get_path mnt sv)) =
            true := by
        rw [List.any_eq_true]
        exact ⟨sv, hmem, by simp [hro]⟩
      simp [hany]
    · intro hall
      have hany : subvols.any
          (fun x => !x.ro && decide (get_path mnt x = get_path mnt sv)) =
            false := by
        rw [List.any_eq_false]
        intro x hx
        by_cases hp : get_path mnt x = get_path mnt sv
        · have := hall x hx hp
          simp [this]
        · simp [hp]
      rw [set_all_ro_apply, hany]
      simp only [Bool.false_eq_true, if_false]
      rw [hf _ sv hmem]
      rw [set_all_ro_apply, hany]
      simp

/-- Witness for C3: one initially-writable subvolume round-trips to
`ro = false` under identity mid-run effects. -/
theorem C3_ro_round_trip_witness :
    set_all_ro false [⟨7, 50, 5, "a", "u7", none, 5, 10, false⟩] "/m"
        (id (set_all_ro true [⟨7, 50, 5, "a", "u7", none, 5, 10, false⟩]
          "/m" (fun _ => false)))
        (get_path "/m" ⟨7, 50, 5, "a", "u7", none, 5, 10, false⟩) = false :=
  (C3_ro_round_trip.2 [⟨7, 50, 5, "a", "u7", none, 5, 10, false⟩] "/m"
      (fun _ => false) id (fun _ _ _ => rfl)
      ⟨7, 50, 5, "a", "u7", none, 5, 10, false⟩ (by decide)).1 rfl

lemma uuid_lookup_eq_none {subvols : List Subvol} {u : String}
    (h : ∀ m ∈ subvols, m.uuid ≠ u) : uuid_lookup subvols u = none := by
  unfold uuid_lookup
  rw [List.find?_eq_none]
  intro x hx
  simp [h x (List.mem_reverse.mp hx)]

lemma snap_list_src_mem (subvols : List Subvol) (fuel : Nat)
    (ih : ∀ (y : Subvol) (parent : Option Subvol) (j : SnapJob),
        y ∈ subvols → j ∈ send_subvol_snap subvols fuel y parent →
        j.1 = y ∨ ∃ m ∈ subvols, j.1.parent_uuid = some m.uuid)
    (x : Subvol) (hx : x ∈ subvols) :
    ∀ (l : List Subvol) (prev : Subvol) (j : SnapJob),
      (∀ c ∈ l, c ∈ subvols ∧ c.parent_uuid = some x.uuid) →
      j ∈ send_snap_list subvols fuel prev l →
      ∃ m ∈ subvols, j.1.parent_uuid = some m.uuid := by
  intro l
  induction l with
  | nil =>
    intro prev j _ hj
    simp [send_snap_list] at hj
  | cons c rest ihl =>
    intro prev j hcl hj
    rcases List.mem_append.mp (by simpa [send_snap_list] using hj) with h1 | h1
    · rcases ih c (some prev) j (hcl c (by simp)).1 h1 with h2 | h2
      · exact ⟨x, hx, by rw [h2]; exact (hcl c (by simp)).2⟩
      · exact h2
    · exact ihl c j (fun d hd => hcl d (by simp [hd])) h1

lemma snap_src_mem (subvols : List Subvol) :
    ∀ (fuel : Nat) (x : Subvol) (parent : Option Subvol) (j : SnapJob),
      x ∈ subvols → j ∈ send_subvol_snap subvols fuel x parent →
      j.1 = x ∨ ∃ m ∈ subvols, j.1.parent_uuid = some m.uuid := by
  intro fuel
  induction fuel with
  | zero =>
    intro x parent j _ hj
    simp [send_subvol_snap] at hj
  | succ fuel ih =>
    intro x parent j hx hj
    rw [send_subvol_snap_succ] at hj
    rcases List.mem_cons.mp hj with h | h
    · left
      rw [h]
    · right
      have hlist :
          ∀ c ∈ pySort snapKeyGe
              (subvols.filter
                (fun y => decide (y.parent_uuid = some x.uuid))),
            c ∈ subvols ∧ c.parent_uuid = some x.uuid := by
        intro c hc
        have hcf := mem_pySort.mp hc
        have := List.mem_filter.mp hcf
        exact ⟨this.1, of_decide_eq_true this.2⟩
      exact snap_list_src_mem subvols fuel ih x hx _ x j hlist h

/-- C8 claims a subvolume with a foreign (absent-from-inventory)
`parent_uuid` is sent at the top of a snapshot-strategy descent.
Counterexample: with inventory `[p, f]` where `f.parent_uuid` names no
inventoried uuid, the snapshot plan consists of the job for `p` alone — `f`
is never sent. -/
theorem C8_foreign_parent_counterexample :
    send_subvols_snap_plan
        [⟨1, 50, 5, "p", "up", none, 5, 10, false⟩,
         ⟨2, 50, 5, "f", "uf", some "ux", 5, 20, false⟩] =
      [(⟨1, 50, 5, "p", "up", none, 5, 10, false⟩, none)] ∧
    ∀ j ∈ send_subvols_snap_plan
        [⟨1, 50, 5, "p", "up", none, 5, 10, false⟩,
         ⟨2, 50, 5, "f", "uf", some "ux", 5, 20, false⟩],
      j.1 ≠ ⟨2, 50, 5, "f", "uf", some "ux", 5, 20, false⟩ := by
  constructor
  · decide
  · decide

/-- C8 (amended): a subvolume whose `parent_uuid` references a uuid absent
from the inventory has an empty ancestor chain under the parent strategy
(treated as an original), and under the snapshot strategy it is **not** sent
at all: only subvolumes with absent `parent_uuid` start descents, and no
descent ever reaches it.  The run raises no error on its account (the send
phase silently skips it). -/
theorem C8_foreign_parent :
    ∀ (subvols : List Subvol) (sv : Subvol) (u : String) (fuel : Nat),
      sv.parent_uuid = some u →
      (∀ m ∈ subvols, m.uuid ≠ u) →
      parents_getter subvols fuel sv = [] ∧
      ∀ j ∈ send_subvols_snap_plan subvols, j.1 ≠ sv := by
  intro subvols sv u fuel hpu habs
  constructor
  · cases fuel with
    | zero => rfl
    | succ fuel =>
      unfold parents_getter
      rw [hpu]
      simp [uuid_lookup_eq_none habs]
  · intro j hj hsrc
    unfold send_subvols_snap_plan at hj
    rcases List.mem_flatMap.mp hj with ⟨r, hr, hjr⟩
    have hrsub := List.mem_filter.mp hr
    rcases snap_src_mem subvols subvols.length r none j hrsub.1 hjr with
      h | ⟨m, hm, hmu⟩
    · rw [hsrc] at h
      have hroot : r.parent_uuid = none := of_decide_eq_true hrsub.2
      rw [← h] at hroot
      rw [hpu] at hroot
      exact Option.some_ne_none u hroot
    · rw [hsrc, hpu] at hmu
      exact habs m hm (Option.some.inj hmu.symm)

/-- Witness for C8 (amended) at the concrete two-subvolume inventory. -/
theorem C8_foreign_parent_witness :
    parents_getter
        [⟨1, 50, 5, "p", "up", none, 5, 10, false⟩,
         ⟨2, 50, 5, "f", "uf", some "ux", 5, 20, false⟩] 2
        ⟨2, 50, 5, "f", "uf", some "ux", 5, 20, false⟩ = [] ∧
    ∀ j ∈ send_subvols_snap_plan
        [⟨1, 50, 5, "p", "up", none, 5, 10, false⟩,
         ⟨2, 50, 5, "f", "uf", some "ux", 5, 20, false⟩],
      j.1 ≠ ⟨2, 50, 5, "f", "uf", some "ux", 5, 20, false⟩ :=
  C8_foreign_parent
    [⟨1, 50, 5, "p", "up", none, 5, 10, false⟩,
     ⟨2, 50, 5, "f", "uf", some "ux", 5, 20, false⟩]
    ⟨2, 50, 5, "f", "uf", some "ux", 5, 20, false⟩ "ux" 2 (by decide)
    (by decide)

/-- C1: for a progenitor `P` (no `parent_uuid`) with snapshots `s1 s2 s3` of
strictly increasing creation generations, the snapshot-strategy planner
descends from `P`, sorts the children by `(ogen, id)` descending and sends
each with the previously-sent sibling as parent: the job sequence is
`(P, none), (s3, P), (s2, s3), (s1, s2)`; and a parent is always passed as
both `-p` and `-c`. -/
theorem C1_snapshot_sibling_order :
    ∀ (P s1 s2 s3 : Subvol),
      P.parent_uuid = none →
      s1.parent_uuid = some P.uuid →
      s2.parent_uuid = some P.uuid →
      s3.parent_uuid = some P.uuid →
      s1.ogen < s2.ogen → s2.ogen < s3.ogen →
      P.uuid ≠ s1.uuid → P.uuid ≠ s2.uuid → P.uuid ≠ s3.uuid →
      send_subvols_snap_plan [P, s1, s2, s3] =
        [(P, none), (s3, some P), (s2, some s3), (s1, some s2)] ∧
      ∀ (old : String) (q : Subvol),
        snap_send_flags old (some q) =
          ["-p", get_path old q, "-c", get_path old q] := by
  intro P s1 s2 s3 hP h1 h2 h3 g12 g23 u1 u2 u3
  refine ⟨?_, fun old q => rfl⟩
  have hroots : ([P, s1, s2, s3].filter
      (fun x => decide (x.parent_uuid = none))) = [P] := by
    simp [List.filter, hP, h1, h2, h3]
  have hchP : ([P, s1, s2, s3].filter
      (fun x => decide (x.parent_uuid = some P.uuid))) = [s1, s2, s3] := by
    simp [List.filter, hP, h1, h2, h3]
  have hch1 : ([P, s1, s2, s3].filter
      (fun x => decide (x.parent_uuid = some s1.uuid))) = [] := by
    simp [List.filter, hP, h1, h2, h3, u1]
  have hch2 : ([P, s1, s2, s3].filter
      (fun x => decide (x.parent_uuid = some s2.uuid))) = [] := by
    simp [List.filter, hP, h1, h2, h3, u2]
  have hch3 : ([P, s1, s2, s3].filter
      (fun x => decide (x.parent_uuid = some s3.uuid))) = [] := by
    simp [List.filter, hP, h1, h2, h3, u3]
  have a1 : snapKeyGe s1 s2 = false := by
    simp only [snapKeyGe, Bool.or_eq_false_iff, Bool.and_eq_false_iff,
      decide_eq_false_iff_not]
    omega
  have a2 : snapKeyGe s2 s3 = false := by
    simp only [snapKeyGe, Bool.or_eq_false_iff, Bool.and_eq_false_iff,
      decide_eq_false_iff_not]
    omega
  have hsort : pySort snapKeyGe [s1, s2, s3] = [s3, s2, s1] := by
    simp [pySort, pyInsert, a1, a2]
  unfold send_subvols_snap_plan
  rw [hroots]
  have hlen : ([P, s1, s2, s3] : List Subvol).length = 3 + 1 := rfl
  rw [hlen]
  simp only [List.flatMap_cons, List.flatMap_nil, List.append_nil]
  rw [send_subvol_snap_succ, hchP, hsort]
  simp only [send_snap_list]
  rw [show (3 : Nat) = 2 + 1 from rfl]
  rw [send_subvol_snap_succ, send_subvol_snap_succ, send_subvol_snap_succ]
  rw [hch3, hch2, hch1]
  simp [pySort, send_snap_list]

/-- Witness for C1 at a concrete progenitor with three snapshots. -/
theorem C1_snapshot_sibling_order_witness :
    send_subvols_snap_plan
        [⟨1, 100, 5, "cur", "uP", none, 5, 10, false⟩,
         ⟨2, 100, 5, "snap1", "u1", some "uP", 5, 20, true⟩,
         ⟨3, 100, 5, "snap2", "u2", some "uP", 5, 30, true⟩,
         ⟨4, 100, 5, "snap3", "u3", some "uP", 5, 40, true⟩] =
      [(⟨1, 100, 5, "cur", "uP", none, 5, 10, false⟩, none),
       (⟨4, 100, 5, "snap3", "u3", some "uP", 5, 40, true⟩,
         some ⟨1, 100, 5, "cur", "uP", none, 5, 10, false⟩),
       (⟨3, 100, 5, "snap2", "u2", some "uP", 5, 30, true⟩,
         some ⟨4, 100, 5, "snap3", "u3", some "uP", 5, 40, true⟩),
       (⟨2, 100, 5, "snap1", "u1", some "uP", 5, 20, true⟩,
         some ⟨3, 100, 5, "snap2", "u2", some "uP", 5, 30, true⟩)] :=
  (C1_snapshot_sibling_order
    ⟨1, 100, 5, "cur", "uP", none, 5, 10, false⟩
    ⟨2, 100, 5, "snap1", "u1", some "uP", 5, 20, true⟩
    ⟨3, 100, 5, "snap2", "u2", some "uP", 5, 30, true⟩
    ⟨4, 100, 5, "snap3", "u3", some "uP", 5, 40, true⟩
    rfl rfl rfl rfl (by decide) (by decide) (by decide) (by decide)
    (by decide)).1

lemma chain_iter_none_mono (subvols : List Subvol) :
    ∀ (n m : Nat) (x : Subvol), chain_iter subvols n x = none → n ≤ m →
      chain_iter subvols m x = none := by
  intro n
  induction n with
  | zero =>
    intro m x h
    simp [chain_iter] at h
  | succ n ih =>
    intro m x h hnm
    cases m with
    | zero => omega
    | succ m =>
      rcases hcs : chain_step subvols x with _ | y
      · simp [chain_iter, hcs]
      · simp only [chain_iter, hcs] at h ⊢
        exact ih m y h (Nat.le_of_succ_le_succ hnm)

lemma chain_bound (subvols : List Subvol) :
    ∀ (l : List Subvol),
      (∀ x ∈ l, ∃ n, chain_iter subvols n x = none) →
      ∃ B, ∀ x ∈ l, chain_iter subvols B x = none := by
  intro l
  induction l with
  | nil => intro _; exact ⟨0, by simp⟩
  | cons a rest ih =>
    intro h
    obtain ⟨na, hna⟩ := h a (by simp)
    obtain ⟨B, hB⟩ := ih (fun x hx => h x (by simp [hx]))
    refine ⟨max na B, ?_⟩
    intro x hx
    rcases List.mem_cons.mp hx with rfl | hx
    · exact chain_iter_none_mono subvols na _ x hna (Nat.le_max_left _ _)
    · exact chain_iter_none_mono subvols B _ x (hB x hx)
        (Nat.le_max_right _ _)

lemma parents_getter_stop (subvols : List Subvol) (x : Subvol)
    (h : chain_step subvols x = none) :
    ∀ f, parents_getter subvols f x = [] := by
  intro f
  cases f with
  | zero => rfl
  | succ f =>
    unfold chain_step at h
    rcases hx : x.parent_uuid with _ | pu
    · simp [parents_getter, hx]
    · rw [hx] at h
      simp at h
      simp [parents_getter, hx, h]

lemma parents_getter_step (subvols : List Subvol) (x y : Subvol)
    (h : chain_step subvols x = some y) :
    ∀ f, parents_getter subvols (f + 1) x =
      y :: parents_getter subvols f y := by
  intro f
  unfold chain_step at h
  rcases hx : x.parent_uuid with _ | pu
  · rw [hx] at h
    simp at h
  · rw [hx] at h
    simp at h
    simp [parents_getter, hx, h]

lemma parents_getter_stable (subvols : List Subvol) :
    ∀ (n : Nat) (x : Subvol), chain_iter subvols n x = none →
      ∀ f₁ f₂, n ≤ f₁ → n ≤ f₂ →
        parents_getter subvols f₁ x = parents_getter subvols f₂ x := by
  intro n
  induction n with
  | zero =>
    intro x h
    simp [chain_iter] at h
  | succ n ih =>
    intro x h f₁ f₂ h1 h2
    rcases hcs : chain_step subvols x with _ | y
    · rw [parents_getter_stop subvols x hcs,
        parents_getter_stop subvols x hcs]
    · simp only [chain_iter, hcs] at h
      cases f₁ with
      | zero => omega
      | succ f₁ =>
        cases f₂ with
        | zero => omega
        | succ f₂ =>
          rw [parents_getter_step subvols x y hcs,
            parents_getter_step subvols x y hcs]
          rw [ih y h f₁ f₂ (by omega) (by omega)]

lemma find_self {l : List Subvol} (hnd : (l.map Subvol.uuid).Nodup)
    {sv : Subvol} (hm : sv ∈ l) :
    l.find? (fun x => decide (x.uuid = sv.uuid)) = some sv := by
  induction l with
  | nil => simp at hm
  | cons a rest ih =>
    simp only [List.map_cons, List.nodup_cons] at hnd
    rcases List.mem_cons.mp hm with rfl | hm2
    · rw [List.find?_cons_of_pos _ (by simp)]
    · have hne : ¬ (a.uuid = sv.uuid) :=
        fun he => hnd.1 (he ▸ List.mem_map_of_mem _ hm2)
      rw [List.find?_cons_of_neg _ (by simp [hne])]
      exact ih hnd.2 hm2

lemma lookup_self {subvols : List Subvol}
    (hnd : (subvols.map Subvol.uuid).Nodup) {sv : Subvol}
    (hm : sv ∈ subvols) : uuid_lookup subvols sv.uuid = some sv := by
  unfold uuid_lookup
  apply find_self
  · rw [List.map_reverse]
    exact List.nodup_reverse.mpr hnd
  · exact List.mem_reverse.mpr hm

lemma send_snap_list_congr (subvols : List Subvol) (f₁ f₂ : Nat) :
    ∀ (l : List Subvol) (prev : Subvol),
      (∀ c ∈ l, ∀ parent, send_subvol_snap subvols f₁ c parent =
        send_subvol_snap subvols f₂ c parent) →
      send_snap_list subvols f₁ prev l = send_snap_list subvols f₂ prev l := by
  intro l
  induction l with
  | nil => intro prev _; rfl
  | cons c rest ih =>
    intro prev h
    simp only [send_snap_list]
    rw [h c (by simp) (some prev), ih c (fun d hd p => h d (by simp [hd]) p)]

lemma send_stable_aux (subvols : List Subvol) (B : Nat)
    (hnd : (subvols.map Subvol.uuid).Nodup)
    (hB : ∀ x ∈ subvols, chain_iter subvols B x = none) :
    ∀ (m : Nat) (sv : Subvol) (d : Nat) (parent : Option Subvol)
      (f₁ f₂ : Nat),
      sv ∈ subvols → chain_iter subvols d sv ≠ none → B ≤ d + m →
      m ≤ f₁ → m ≤ f₂ →
      send_subvol_snap subvols f₁ sv parent =
        send_subvol_snap subvols f₂ sv parent := by
  intro m
  induction m with
  | zero =>
    intro sv d parent f₁ f₂ hm hne hBd _ _
    exact absurd
      (chain_iter_none_mono subvols B d sv (hB sv hm) (by omega)) hne
  | succ m ih =>
    intro sv d parent f₁ f₂ hm hne hBd hf1 hf2
    cases f₁ with
    | zero => omega
    | succ f₁ =>
      cases f₂ with
      | zero => omega
      | succ f₂ =>
        rw [send_subvol_snap_succ, send_subvol_snap_succ]
        congr 1
        apply send_snap_list_congr
        intro c hc parent2
        have hcf := List.mem_filter.mp (mem_pySort.mp hc)
        have hcm : c ∈ subvols := hcf.1
        have hcp : c.parent_uuid = some sv.uuid := of_decide_eq_true hcf.2
        have hstep : chain_step subvols c = some sv := by
          unfold chain_step
          rw [hcp]
          exact lookup_self hnd hm
        have hne2 : chain_iter subvols (d + 1) c ≠ none := by
          simp only [chain_iter, hstep]
          exact hne
        exact ih c (d + 1) parent2 f₁ f₂ hcm hne2 (by omega) (by omega)
          (by omega)

lemma cyc_pg_step_a (f : Nat) :
    parents_getter cycFS (f + 1) cycA =
      cycB :: parents_getter cycFS f cycB := rfl

lemma cyc_pg_step_b (f : Nat) :
    parents_getter cycFS (f + 1) cycB =
      cycA :: parents_getter cycFS f cycA := rfl

lemma cyc_pg_len :
    ∀ f, (parents_getter cycFS f cycA).length = f ∧
      (parents_getter cycFS f cycB).length = f := by
  intro f
  induction f with
  | zero => exact ⟨rfl, rfl⟩
  | succ f ih =>
    rw [cyc_pg_step_a, cyc_pg_step_b]
    simp [ih.1, ih.2]

lemma cyc_children_a :
    cycFS.filter (fun x => decide (x.parent_uuid = some cycA.uuid)) =
      [cycB] := by decide

lemma cyc_children_b :
    cycFS.filter (fun x => decide (x.parent_uuid = some cycB.uuid)) =
      [cycA] := by decide

lemma cyc_send_step_a (f : Nat) (p : Option Subvol) :
    send_subvol_snap cycFS (f + 1) cycA p =
      (cycA, p) :: send_subvol_snap cycFS f cycB (some cycA) := by
  rw [send_subvol_snap_succ, cyc_children_a]
  simp [pySort, pyInsert, send_snap_list]

lemma cyc_send_step_b (f : Nat) (p : Option Subvol) :
    send_subvol_snap cycFS (f + 1) cycB p =
      (cycB, p) :: send_subvol_snap cycFS f cycA (some cycB) := by
  rw [send_subvol_snap_succ, cyc_children_b]
  simp [pySort, pyInsert, send_snap_list]

lemma cyc_send_len :
    ∀ f, ∀ (p : Option Subvol),
      (send_subvol_snap cycFS f cycA p).length = f ∧
      (send_subvol_snap cycFS f cycB p).length = f := by
  intro f
  induction f with
  | zero => intro p; exact ⟨rfl, rfl⟩
  | succ f ih =>
    intro p
    rw [cyc_send_step_a, cyc_send_step_b]
    simp [(ih _).1, (ih _).2]

/-- C10: with unique uuids (a data-model invariant of the inventory) and an
acyclic `parent_uuid` relation over the uuid index — every chain of lookups
eventually reaches a subvolume with no parent uuid or a uuid absent from the
index — both the ancestor walk of `parents_getter` and the recursive descent
of `send_subvol_snap` terminate: their fuel models stabilise beyond some
bound.  Acyclicity is necessary: on the two-element cyclic inventory `cycFS`
neither ever stabilises (each extra unit of fuel grows the output). -/
theorem C10_termination_needs_acyclicity :
    (∀ (subvols : List Subvol),
        (subvols.map Subvol.uuid).Nodup →
        (∀ x ∈ subvols, ∃ n, chain_iter subvols n x = none) →
        ∀ sv ∈ subvols,
          (∃ N, ∀ f₁ f₂, N ≤ f₁ → N ≤ f₂ →
              parents_getter subvols f₁ sv = parents_getter subvols f₂ sv) ∧
          ∀ parent, ∃ N, ∀ f₁ f₂, N ≤ f₁ → N ≤ f₂ →
              send_subvol_snap subvols f₁ sv parent =
                send_subvol_snap subvols f₂ sv parent) ∧
    (¬ ∃ N, ∀ f₁ f₂, N ≤ f₁ → N ≤ f₂ →
        parents_getter cycFS f₁ cycA = parents_getter cycFS f₂ cycA) ∧
    ¬ ∃ N, ∀ f₁ f₂, N ≤ f₁ → N ≤ f₂ →
        send_subvol_snap cycFS f₁ cycA none =
          send_subvol_snap cycFS f₂ cycA none := by
  refine ⟨?_, ?_, ?_⟩
  · intro subvols hnd hterm sv hm
    obtain ⟨B, hB⟩ := chain_bound subvols subvols hterm
    constructor
    · obtain ⟨n, hn⟩ := hterm sv hm
      exact ⟨n, fun f₁ f₂ h1 h2 =>
        parents_getter_stable subvols n sv hn f₁ f₂ h1 h2⟩
    · intro parent
      refine ⟨B, fun f₁ f₂ h1 h2 => ?_⟩
      exact send_stable_aux subvols B hnd hB B sv 0 parent f₁ f₂ hm
        (by simp [chain_iter]) (by omega) h1 h2
  · rintro ⟨N, hN⟩
    have h := congrArg List.length (hN N (N + 1) (le_refl N) (by omega))
    rw [(cyc_pg_len N).1, (cyc_pg_len (N + 1)).1] at h
    omega
  · rintro ⟨N, hN⟩
    have h := congrArg List.length (hN N (N + 1) (le_refl N) (by omega))
    rw [(cyc_send_len N none).1, (cyc_send_len (N + 1) none).1] at h
    omega

/-- Witness for C10 on a concrete acyclic single-subvolume inventory. -/
theorem C10_termination_needs_acyclicity_witness :
    (∃ N, ∀ f₁ f₂, N ≤ f₁ → N ≤ f₂ →
        parents_getter [⟨1, 0, 5, "a", "ua", none, 5, 0, false⟩] f₁
            ⟨1, 0, 5, "a", "ua", none, 5, 0, false⟩ =
          parents_getter [⟨1, 0, 5, "a", "ua", none, 5, 0, false⟩] f₂
            ⟨1, 0, 5, "a", "ua", none, 5, 0, false⟩) ∧
    ∃ N, ∀ f₁ f₂, N ≤ f₁ → N ≤ f₂ →
        send_subvol_snap [⟨1, 0, 5, "a", "ua", none, 5, 0, false⟩] f₁
            ⟨1, 0, 5, "a", "ua", none, 5, 0, false⟩ none =
          send_subvol_snap [⟨1, 0, 5, "a", "ua", none, 5, 0, false⟩] f₂
            ⟨1, 0, 5, "a", "ua", none, 5, 0, false⟩ none :=
  have h := C10_termination_needs_acyclicity.1
    [⟨1, 0, 5, "a", "ua", none, 5, 0, false⟩] (by decide)
    (fun x hx => by rw [List.mem_singleton.mp hx]; exact ⟨1, rfl⟩)
    ⟨1, 0, 5, "a", "ua", none, 5, 0, false⟩ (by decide)
  ⟨h.1, h.2 none⟩
